import Mathlib

/-!
# FlatUI core: shallow embedding and verification

A shallow embedding of the FlatUI immediate-mode GUI toolkit
(`include/flatui/flatui.h` and the textured fragment shader), together
with proofs of the documented behavioural properties.

The repository ships the public header (declarations and documentation)
and the shaders; the layout/interaction implementation (`flatui.cpp`) is
not among the shipped sources, so those parts are modelled from the
specification's description of the layout engine, the interaction
tracker and the frame driver.  The fragment shader is embedded directly
from its GLSL source.
-/

namespace FlatUI

/-! ## Event flag constants (from `enum Event` in flatui.h) -/

def kEventNone : Nat := 0
def kEventWentUp : Nat := 1
def kEventWentDown : Nat := 2
def kEventIsDown : Nat := 4
def kEventStartDrag : Nat := 8
def kEventEndDrag : Nat := 16
def kEventIsDragging : Nat := 32
def kEventHover : Nat := 64

/-- A HashedId: a stable hash of an explicit ID string or of content.
We model hashes abstractly as natural numbers. -/
abbrev HashedId : Type := Nat

/-! ## Layout engine

Modelled from the spec: the layout implementation (`flatui.cpp`) is not
among the shipped sources.  The spec describes a two-pass recursive
layout over a per-frame declared group hierarchy: for each Group,
measure computes its size as sum of children plus intra-element spacing
along the primary axis of a sequential (horizontal/vertical) layout, the
max of children's sizes on the cross axis, and the union bounding box
(max in both axes) for overlay layout, with margin insets added. -/

/-- Modelled from the spec: layout mode of a group
(horizontal/vertical/overlay), as taken by `StartGroup`. -/
inductive Layout where
  | horizontal
  | vertical
  | overlay
deriving DecidableEq

/-- Modelled from the spec: margin insets of a group, as set by
`SetMargin` (left, top, right, bottom), in virtual units. -/
structure Margin where
  left : ℚ
  top : ℚ
  right : ℚ
  bottom : ℚ
deriving DecidableEq

/-- The all-zero margin, the default for a group without `SetMargin`. -/
def Margin.zero : Margin := ⟨0, 0, 0, 0⟩

/-- Modelled from the spec: the per-frame declared hierarchy.  A leaf
element (label, image, edit box, custom element) carries its HashedId
and virtual size; a group, created by `StartGroup(layout, spacing, id)`
and closed by `EndGroup`, carries its layout mode, spacing, margin and
children. -/
inductive Widget where
  | element (id : Nat) (width height : ℚ)
  | group (layout : Layout) (spacing : ℚ) (margin : Margin) (children : List Widget)

/-- Sum of a list of rationals. -/
def qsum : List ℚ → ℚ
  | [] => 0
  | x :: xs => x + qsum xs

/-- Maximum of a list of rationals, with 0 for the empty list. -/
def qmax : List ℚ → ℚ
  | [] => 0
  | x :: xs => max x (qmax xs)

/-- Modelled from the spec: combine the measured sizes of a group's
children according to the group's layout mode, adding
`spacing * (n - 1)` along the primary axis of a sequential layout
(spacing is intra-element, so it is counted once per gap). -/
def combineSizes (layout : Layout) (spacing : ℚ) (sizes : List (ℚ × ℚ)) : ℚ × ℚ :=
  match layout with
  | .horizontal =>
      (qsum (sizes.map Prod.fst) + spacing * ((sizes.length - 1 : ℕ) : ℚ),
       qmax (sizes.map Prod.snd))
  | .vertical =>
      (qmax (sizes.map Prod.fst),
       qsum (sizes.map Prod.snd) + spacing * ((sizes.length - 1 : ℕ) : ℚ))
  | .overlay =>
      (qmax (sizes.map Prod.fst), qmax (sizes.map Prod.snd))

mutual

/-- Modelled from the spec: the measure pass.  A leaf's measured size is
its declared virtual size; a group's measured size combines its
children's measured sizes per the layout mode and adds the margin
insets. -/
def measure : Widget → ℚ × ℚ
  | .element _ w h => (w, h)
  | .group layout spacing margin children =>
      let inner := combineSizes layout spacing (measureChildren children)
      (inner.1 + margin.left + margin.right, inner.2 + margin.top + margin.bottom)

/-- Measured sizes of a list of children, in declaration order. -/
def measureChildren : List Widget → List (ℚ × ℚ)
  | [] => []
  | c :: rest => measure c :: measureChildren rest

end

/-- Advance the running placement offset past a child of the given
measured size, along the primary axis of the layout (overlay groups
position children independently, so the offset does not advance). -/
def advanceOffset (layout : Layout) (spacing : ℚ) (pos : ℚ × ℚ) (sz : ℚ × ℚ) : ℚ × ℚ :=
  match layout with
  | .horizontal => (pos.1 + sz.1 + spacing, pos.2)
  | .vertical => (pos.1, pos.2 + sz.2 + spacing)
  | .overlay => pos

mutual

/-- Modelled from the spec: the position pass.  Walks the declared tree
top-down, assigning each child's origin from the parent's origin plus a
running offset along the primary axis, producing the per-frame mapping
from HashedId to resolved rect (origin, size). -/
def place : Widget → ℚ × ℚ → List (Nat × ((ℚ × ℚ) × (ℚ × ℚ)))
  | .element i w h, pos => [(i, (pos, (w, h)))]
  | .group layout spacing margin children, pos =>
      placeChildren layout spacing (pos.1 + margin.left, pos.2 + margin.top) children

/-- Place a group's children in declaration order at a running offset. -/
def placeChildren (layout : Layout) (spacing : ℚ) :
    ℚ × ℚ → List Widget → List (Nat × ((ℚ × ℚ) × (ℚ × ℚ)))
  | _, [] => []
  | pos, c :: rest =>
      place c pos ++ placeChildren layout spacing (advanceOffset layout spacing pos (measure c)) rest

end

/-! ## Interaction state

Modelled from the spec: `InteractionState` survives across frames and
holds the current focused element ID, the currently captured pointer
index and owning element ID, and the drag-start position.  The
interaction implementation is not among the shipped sources. -/

/-- Modelled from the spec: the session-scoped interaction state.
`captured` is the currently captured pointer index together with the
owning element ID, or `none` when no pointer is captured. -/
structure InteractionState where
  focus : Option HashedId
  captured : Option (Nat × HashedId)
  dragStart : ℚ × ℚ
deriving DecidableEq

/-- The startup interaction state: no focus, no capture. -/
def InteractionState.init : InteractionState :=
  { focus := none, captured := none, dragStart := (0, 0) }

/-- Element `e` holds capture of pointer index `p` in state `st`. -/
def holdsCapture (st : InteractionState) (p : Nat) (e : HashedId) : Prop :=
  st.captured = some (p, e)

instance (st : InteractionState) (p : Nat) (e : HashedId) :
    Decidable (holdsCapture st p e) := by
  unfold holdsCapture; infer_instance

/-- Modelled from the spec: `CapturePointer(element_id)` makes the
element with `element_id` exclusively receive events of the current
pointer until `ReleasePointer()` is called. -/
def capturePointer (currentPointer : Nat) (elementId : HashedId)
    (st : InteractionState) : InteractionState :=
  { st with captured := some (currentPointer, elementId) }

/-- Modelled from the spec: `ReleasePointer()` releases the pointer
capture. -/
def releasePointer (st : InteractionState) : InteractionState :=
  { st with captured := none }

/-- Modelled from the spec: `GetCapturedPointerIndex()` returns the
index of the captured pointer, or `-1` if no pointer was captured. -/
def getCapturedPointerIndex (st : InteractionState) : Int :=
  match st.captured with
  | none => -1
  | some (p, _) => (p : Int)

/-! ## Per-frame events and the two passes

Modelled from the spec and the `Event` documentation in flatui.h: the
interaction implementation is not among the shipped sources. -/

/-- Pass mode of the frame driver: `Run` executes the caller's
declaration procedure twice, once for layout and once for
interaction and rendering. -/
inductive PassMode where
  | layoutPass
  | interactionPass
deriving DecidableEq

/-- Modelled from the spec: the per-frame event bitmask of one
interactive element, combined from the pointer transitions observed on
it during the frame.  `press`/`release` say whether the pointing device
went down / came up over the element this frame; `wasDown` says whether
it was already down on the element when the frame began (WentUp only
triggers on the element that received the corresponding WentDown);
`startDrag`/`endDrag`/`dragging`/`hover` are the drag and hover states. -/
def eventMask (press release wasDown startDrag endDrag dragging hover : Bool) : Nat :=
  let wentDown := press
  let wentUp := release && (press || wasDown)
  let isDown := (press || wasDown) && !release
  (if wentUp then kEventWentUp else 0) |||
  (if wentDown then kEventWentDown else 0) |||
  (if isDown then kEventIsDown else 0) |||
  (if startDrag then kEventStartDrag else 0) |||
  (if endDrag then kEventEndDrag else 0) |||
  (if dragging then kEventIsDragging else 0) |||
  (if hover then kEventHover else 0)

/-- One item of the per-frame declaration sequence, as seen by the
interaction tracker: an interactive element (an element on which
`CheckEvent` is called) with its HashedId, or the marker recorded by a
`ModalGroup()` call. -/
inductive FrameItem where
  | interactive (id : HashedId)
  | modalMarker
deriving DecidableEq

/-- Whether a frame item is the `ModalGroup` marker. -/
def FrameItem.isModal : FrameItem → Bool
  | .interactive _ => false
  | .modalMarker => true

/-- Modelled from the spec: an element declared at position `i` of the
frame is interactive only if no `ModalGroup()` marker follows it — a
`ModalGroup` call makes all interactive elements declared before it
non-interactive for the remainder of the frame. -/
def elementActive (items : List FrameItem) (i : Nat) : Bool :=
  (items.drop (i + 1)).all (fun it => !it.isModal)

/-- Modelled from the spec: the result of `CheckEvent()` for the element
declared at position `i`.  During the layout pass every event query
returns `kEventNone`; during the interaction pass an element that a
`ModalGroup` call has made non-interactive short-circuits to
`kEventNone`, otherwise the element's per-frame event bitmask `raw i`
is returned. -/
def checkEvent (mode : PassMode) (items : List FrameItem) (raw : Nat → Nat) (i : Nat) : Nat :=
  match mode with
  | .layoutPass => kEventNone
  | .interactionPass => if elementActive items i then raw i else kEventNone

/-- Modelled from the spec: the ordered set of interactive element IDs
that keyboard/gamepad focus navigation advances through — elements
declared before a `ModalGroup` marker are skipped. -/
def focusOrder (items : List FrameItem) : List HashedId :=
  items.foldl
    (fun acc it =>
      match it with
      | .interactive i => acc ++ [i]
      | .modalMarker => [])
    []

/-! ## Frame driver

Modelled from the spec: `Run` executes the declaration procedure twice
(layout pass, then interaction+render pass); the implementation is not
among the shipped sources.  The declaration procedure is represented as
the declared widget tree (the spec's repeatable declarative callback:
both passes see the same declarations). -/

/-- The immutable per-frame input snapshot supplied by the input
collaborator: pointer position and button state for the current pointer
index. -/
structure InputSnapshot where
  pointerPos : ℚ × ℚ
  pointerDown : Bool
  pointerIndex : Nat
deriving DecidableEq

/-- A placed rect contains a point (rects are closed on all edges). -/
def rectContains (rect : (ℚ × ℚ) × (ℚ × ℚ)) (p : ℚ × ℚ) : Bool :=
  decide (rect.1.1 ≤ p.1 ∧ p.1 ≤ rect.1.1 + rect.2.1 ∧
          rect.1.2 ≤ p.2 ∧ p.2 ≤ rect.1.2 + rect.2.2)

/-- Hit-test a layout result against a pointer position: the ID of the
first declared element whose rect contains the point. -/
def hitTest (lay : List (Nat × ((ℚ × ℚ) × (ℚ × ℚ)))) (p : ℚ × ℚ) : Option Nat :=
  match lay.find? (fun e => rectContains e.2 p) with
  | none => none
  | some e => some e.1

/-- Modelled from the spec: the interaction pass updates the
session-scoped `InteractionState` from the per-frame input snapshot and
the layout result (hit-testing the pointer against the placed rects);
it does not alter the layout result. -/
def interactionStep (input : InputSnapshot) (lay : List (Nat × ((ℚ × ℚ) × (ℚ × ℚ))))
    (st : InteractionState) : InteractionState :=
  if input.pointerDown then
    match hitTest lay input.pointerPos with
    | some id => { st with focus := some id, dragStart := input.pointerPos }
    | none => st
  else st

/-- Modelled from the spec: the layout results of one pass — the
ephemeral per-frame mapping from HashedId to resolved rect, computed by
the measure and position passes from the declared tree alone. -/
def layoutResults (decl : Widget) : List (Nat × ((ℚ × ℚ) × (ℚ × ℚ))) :=
  place decl (0, 0)

/-- Modelled from the spec: the draw commands issued by one pass of the
frame driver.  During the layout pass no draw calls are issued; during
the interaction+render pass each placed element is drawn at its
resolved rect. -/
def passDraws (mode : PassMode) (decl : Widget) : List (Nat × ((ℚ × ℚ) × (ℚ × ℚ))) :=
  match mode with
  | .layoutPass => []
  | .interactionPass => layoutResults decl

/-- Modelled from the spec: one `Run` invocation — execute the
declaration procedure for the layout pass, then for the
interaction+render pass, returning the frame's layout results and the
updated interaction state. -/
def runFrame (decl : Widget) (input : InputSnapshot) (st : InteractionState) :
    List (Nat × ((ℚ × ℚ) × (ℚ × ℚ))) × InteractionState :=
  let lay := layoutResults decl
  (lay, interactionStep input lay st)

/-! ## Group nesting check

Modelled from the spec: `StartGroup()` and `EndGroup()` calls must be
matched; mismatched stack nesting is a usage error detected via
stack-depth checks and reported via an abort/assert-level failure.  The
implementation is not among the shipped sources. -/

/-- A group-scoping call of the declaration procedure, as seen by the
stack-depth check. -/
inductive GuiOp where
  | startGroup
  | endGroup
  | elementOp
deriving DecidableEq

/-- Stack-depth contribution of one call. -/
def GuiOp.depthDelta : GuiOp → Int
  | .startGroup => 1
  | .endGroup => -1
  | .elementOp => 0

/-- Modelled from the spec: run the declaration sequence over the group
stack of depth `d`, checking the stack depth at each `EndGroup`.
Returns the final depth, or `none` for the abort/assert-level failure
on an `EndGroup` with no open group. -/
def processDepth : List GuiOp → Nat → Option Nat
  | [], d => some d
  | .startGroup :: ops, d => processDepth ops (d + 1)
  | .endGroup :: ops, d => if d = 0 then none else processDepth ops (d - 1)
  | .elementOp :: ops, d => processDepth ops d

/-- Modelled from the spec: the frame-level nesting check — the whole
declaration sequence runs without tripping the stack-depth assert and
leaves the group stack empty. -/
def nestingCheck (ops : List GuiOp) : Bool :=
  processDepth ops 0 == some 0

/-- Matched nesting: on every prefix of the call sequence at least as
many `StartGroup` as `EndGroup` calls, with equality over the whole
sequence. -/
def MatchedNesting (ops : List GuiOp) : Prop :=
  (∀ p, p <+: ops → 0 ≤ (p.map GuiOp.depthDelta).sum) ∧
    (ops.map GuiOp.depthDelta).sum = 0

/-! ## Slider

Modelled from the spec: `StartSlider`/`EndSlider` constrain a single
interactive child (the thumb) along one axis to the group's extent
minus the child's own extent, converting a pointer position within the
track to a normalized value in `[0,1]` written to the caller-owned
output. -/

/-- Modelled from the spec: the normalized slider value for a track of
length `trackLen`, a thumb of length `thumbLen`, and a pointer at
track-relative offset `offset` — the offset over the usable extent
`trackLen - thumbLen`, clamped to `[0,1]`. -/
def sliderValue (trackLen thumbLen offset : ℚ) : ℚ :=
  min 1 (max 0 (offset / (trackLen - thumbLen)))

/-! ## Textured fragment shader

Shallow embedding of the textured fragment shader source (GLSL):
its `main` reads `pos = vTexCoord.zw`, discards the fragment when
`any(lessThan(pos.xy, clipping.xy)) || any(greaterThan(pos.xy, clipping.zw))`,
and otherwise writes `gl_FragColor = texture2D(texture_unit_0, vTexCoord.xy)`.
Shader scalars are modelled as rationals; the texture sampler is an
opaque function from UV coordinates to a color. -/

/-- A GLSL `vec4`, with rational components. -/
structure Vec4 where
  x : ℚ
  y : ℚ
  z : ℚ
  w : ℚ
deriving DecidableEq

/-- The textured fragment shader's `main`: `none` models `discard`,
`some c` models writing `c` to `gl_FragColor`. -/
def fragMain (vTexCoord : Vec4) (clipping : Vec4)
    (textureUnit0 : ℚ → ℚ → Vec4) : Option Vec4 :=
  let px := vTexCoord.z
  let py := vTexCoord.w
  if px < clipping.x ∨ py < clipping.y ∨ px > clipping.z ∨ py > clipping.w then
    none
  else
    some (textureUnit0 vTexCoord.x vTexCoord.y)

/-! ## Theorems -/

/-- Every member of a list is bounded by `qmax` of the list. -/
theorem le_qmax_of_mem {x : ℚ} : ∀ {l : List ℚ}, x ∈ l → x ≤ qmax l
  | a :: rest, h => by
    rcases List.mem_cons.mp h with h1 | h2
    · rw [h1]; exact le_max_left _ _
    · exact le_trans (le_qmax_of_mem h2) (le_max_right _ _)

/-- The measured child sizes are the children's measures, in order. -/
theorem measureChildren_eq_map : ∀ cs : List Widget, measureChildren cs = cs.map measure
  | [] => rfl
  | c :: rest => by rw [measureChildren, measureChildren_eq_map rest, List.map_cons]

/-- Claim C1: a sequential group's measured size along the primary axis
equals (hence is at least) the sum of its children's sizes plus one
spacing per gap plus the margins, and on the cross axis it is at least
the max of the children's sizes; in particular a vertical group of two
labels of heights 20 and 30 with spacing 5 measures height 55 and width
the maximum of the two label widths (9 for widths 7 and 9). -/
theorem group_measure_spec (s : ℚ) (m : Margin) (cs : List Widget)
    (hl : 0 ≤ m.left) (ht : 0 ≤ m.top) (hr : 0 ≤ m.right) (hb : 0 ≤ m.bottom) :
    ((measure (Widget.group Layout.vertical s m cs)).2
        = qsum (cs.map fun c => (measure c).2) + s * ((cs.length - 1 : ℕ) : ℚ)
          + m.top + m.bottom)
    ∧ (qsum (cs.map fun c => (measure c).2) + s * ((cs.length - 1 : ℕ) : ℚ)
        ≤ (measure (Widget.group Layout.vertical s m cs)).2)
    ∧ (∀ c ∈ cs, (measure c).1 ≤ (measure (Widget.group Layout.vertical s m cs)).1)
    ∧ ((measure (Widget.group Layout.horizontal s m cs)).1
        = qsum (cs.map fun c => (measure c).1) + s * ((cs.length - 1 : ℕ) : ℚ)
          + m.left + m.right)
    ∧ (∀ c ∈ cs, (measure c).2 ≤ (measure (Widget.group Layout.horizontal s m cs)).2)
    ∧ (measure (Widget.group Layout.vertical 5 Margin.zero
          [Widget.element 1 7 20, Widget.element 2 9 30]) = (9, 55)) := by
  have hsnd : (measureChildren cs).map Prod.snd = cs.map fun c => (measure c).2 := by
    rw [measureChildren_eq_map, List.map_map]; rfl
  have hfst : (measureChildren cs).map Prod.fst = cs.map fun c => (measure c).1 := by
    rw [measureChildren_eq_map, List.map_map]; rfl
  have hlen : (measureChildren cs).length = cs.length := by
    rw [measureChildren_eq_map, List.length_map]
  refine ⟨?_, ?_, ?_, ?_, ?_, ?_⟩
  · rw [measure, combineSizes]
    simp only [hsnd, hlen]
  · rw [measure, combineSizes]
    simp only [hsnd, hlen]
    linarith
  · intro c hc
    rw [measure, combineSizes]
    simp only []
    have hmem : (measure c).1 ∈ (measureChildren cs).map Prod.fst := by
      rw [hfst]
      exact List.mem_map_of_mem _ hc
    have := le_qmax_of_mem hmem
    linarith
  · rw [measure, combineSizes]
    simp only [hfst, hlen]
  · intro c hc
    rw [measure, combineSizes]
    simp only []
    have hmem : (measure c).2 ∈ (measureChildren cs).map Prod.snd := by
      rw [hsnd]
      exact List.mem_map_of_mem _ hc
    have := le_qmax_of_mem hmem
    linarith
  · rw [measure]
    norm_num [measureChildren, measure, combineSizes, qsum, qmax, Margin.zero]

/-- Witness for C1 at a concrete group: the vertical group with
spacing 5, zero margin and two elements of sizes (7, 20) and (9, 30)
measures (9, 55). -/
theorem group_measure_spec_witness :
    measure (Widget.group Layout.vertical 5 Margin.zero
        [Widget.element 1 7 20, Widget.element 2 9 30]) = (9, 55) :=
  (group_measure_spec 5 Margin.zero [Widget.element 1 7 20, Widget.element 2 9 30]
      le_rfl le_rfl le_rfl le_rfl).2.2.2.2.2

/-- Claim C2: at every instant at most one element ID holds pointer
capture per pointer index, and `ReleasePointer` clears the capture for
the current pointer regardless of the prior capture state, so after
`ReleasePointer` no element holds that pointer's capture. -/
theorem pointer_capture_invariant :
    (∀ st : InteractionState, ∀ p : Nat, ∀ e1 e2 : HashedId,
        holdsCapture st p e1 → holdsCapture st p e2 → e1 = e2) ∧
    (∀ st : InteractionState, ∀ p : Nat, ∀ e : HashedId,
        ¬ holdsCapture (releasePointer st) p e) := by
  constructor
  · intro st p e1 e2 h1 h2
    unfold holdsCapture at h1 h2
    rw [h1] at h2
    exact (Prod.mk.injEq _ _ _ _ ▸ Option.some.injEq _ _ ▸ h2).2
  · intro st p e h
    unfold holdsCapture releasePointer at h
    simp at h

/-- Witness for C2 at a concrete state: element 42 captures pointer 0,
and after `ReleasePointer` it no longer holds the capture. -/
theorem pointer_capture_invariant_witness :
    ¬ holdsCapture (releasePointer (capturePointer 0 42 InteractionState.init)) 0 42 :=
  pointer_capture_invariant.2 (capturePointer 0 42 InteractionState.init) 0 42

/-- Claim C3: the layout computed by `Run` is a deterministic function
of the declaration procedure and the per-frame input snapshot — running
the same declaration procedure a second time with unchanged input (the
second run starting from the interaction state the first run produced)
yields identical layout results. -/
theorem layout_two_run_deterministic (decl : Widget) (input : InputSnapshot)
    (st : InteractionState) :
    (runFrame decl input ((runFrame decl input st).2)).1 = (runFrame decl input st).1 ∧
    (runFrame decl input st).1 = layoutResults decl :=
  ⟨rfl, rfl⟩

/-- Claim C4: during the layout pass, every event query on every
element returns `kEventNone` (0), and no draw calls are issued in that
pass. -/
theorem layout_pass_no_events_no_draws (items : List FrameItem) (raw : Nat → Nat)
    (i : Nat) (decl : Widget) :
    checkEvent PassMode.layoutPass items raw i = kEventNone ∧
    passDraws PassMode.layoutPass decl = [] :=
  ⟨rfl, rfl⟩

/-- Claim C5: an element that receives a pointer press and a release
within the same frame gets an event bitmask with both the
`kEventWentDown` bit (2) and the `kEventWentUp` bit (1) set
simultaneously, whatever the other per-frame flags are. -/
theorem press_release_same_frame (wasDown startDrag endDrag dragging hover : Bool) :
    eventMask true true wasDown startDrag endDrag dragging hover &&& kEventWentDown
        = kEventWentDown ∧
    eventMask true true wasDown startDrag endDrag dragging hover &&& kEventWentUp
        = kEventWentUp := by
  cases wasDown <;> cases startDrag <;> cases endDrag <;> cases dragging <;>
    cases hover <;> exact ⟨by decide, by decide⟩

/-- Claim C8: `GetCapturedPointerIndex` returns -1 if and only if no
pointer is currently captured, and on the interaction pass immediately
following a `CapturePointer` call it returns the index of the pointer
that triggered the capture. -/
theorem captured_pointer_index_spec (st : InteractionState) (p : Nat) (e : HashedId) :
    (getCapturedPointerIndex st = -1 ↔ st.captured = none) ∧
    getCapturedPointerIndex (capturePointer p e st) = (p : Int) := by
  constructor
  · constructor
    · intro h
      match hc : st.captured with
      | none => rfl
      | some (q, f) =>
        unfold getCapturedPointerIndex at h
        rw [hc] at h
        simp only [] at h
        omega
    · intro h
      unfold getCapturedPointerIndex
      rw [h]
  · rfl

/-- Claim C6: once a `ModalGroup` marker is declared, every interactive
element declared before it is non-interactive for the remainder of the
frame — its `CheckEvent` short-circuits to `kEventNone` whatever the
raw pointer/keyboard events are — and the focus-navigation order skips
all elements declared before the marker. -/
theorem modal_group_disables_preceding (pre rest : List FrameItem) (raw : Nat → Nat)
    (i : Nat) (hi : i < pre.length) :
    checkEvent PassMode.interactionPass (pre ++ FrameItem.modalMarker :: rest) raw i
        = kEventNone ∧
    focusOrder (pre ++ FrameItem.modalMarker :: rest) = focusOrder rest := by
  constructor
  · have hmem : FrameItem.modalMarker ∈ (pre ++ FrameItem.modalMarker :: rest).drop (i + 1) := by
      rw [List.drop_append_eq_append_drop, Nat.sub_eq_zero_of_le hi, List.drop_zero]
      exact List.mem_append_right _ (List.mem_cons_self _ _)
    have hact : elementActive (pre ++ FrameItem.modalMarker :: rest) i = false := by
      unfold elementActive
      rw [Bool.eq_false_iff]
      intro hall
      rw [List.all_eq_true] at hall
      have := hall _ hmem
      simp [FrameItem.isModal] at this
    rw [checkEvent, hact]
    simp
  · unfold focusOrder
    rw [List.foldl_append]
    rfl

/-- Witness for C6 at a concrete frame: with element 1 declared before
the modal marker and element 2 after it, element 1's `CheckEvent`
returns `kEventNone` even though its raw events are all-ones, and the
focus order is that of the items after the marker. -/
theorem modal_group_disables_preceding_witness :
    checkEvent PassMode.interactionPass
        ([FrameItem.interactive 1] ++ FrameItem.modalMarker :: [FrameItem.interactive 2])
        (fun _ => 127) 0 = kEventNone ∧
    focusOrder ([FrameItem.interactive 1] ++ FrameItem.modalMarker :: [FrameItem.interactive 2])
        = focusOrder [FrameItem.interactive 2] :=
  modal_group_disables_preceding [FrameItem.interactive 1] [FrameItem.interactive 2]
    (fun _ => 127) 0 (by decide)

/-- Claim C7: the slider value written to the caller-owned output is
the track-relative pointer offset normalized by the usable extent
(the group's extent minus the thumb's extent) into `[0,1]`; for a track
of length 100, a thumb of length 20 and an offset of 40 the value is
40/80 = 1/2. -/
theorem slider_value_spec (trackLen thumbLen offset : ℚ)
    (hd : thumbLen < trackLen) (h0 : 0 ≤ offset) (h1 : offset ≤ trackLen - thumbLen) :
    sliderValue trackLen thumbLen offset = offset / (trackLen - thumbLen) ∧
    0 ≤ sliderValue trackLen thumbLen offset ∧
    sliderValue trackLen thumbLen offset ≤ 1 ∧
    sliderValue 100 20 40 = 1 / 2 := by
  have hpos : (0 : ℚ) < trackLen - thumbLen := by linarith
  have hnn : 0 ≤ offset / (trackLen - thumbLen) := div_nonneg h0 (le_of_lt hpos)
  have hle : offset / (trackLen - thumbLen) ≤ 1 := (div_le_one hpos).mpr h1
  have heq : sliderValue trackLen thumbLen offset = offset / (trackLen - thumbLen) := by
    unfold sliderValue
    rw [max_eq_right hnn, min_eq_right hle]
  refine ⟨heq, ?_, ?_, ?_⟩
  · rw [heq]; exact hnn
  · rw [heq]; exact hle
  · unfold sliderValue
    norm_num

/-- Witness for C7 at the concrete scenario: track 100, thumb 20,
offset 40 gives the normalized value 1/2. -/
theorem slider_value_spec_witness : sliderValue 100 20 40 = 1 / 2 :=
  (slider_value_spec 100 20 40 (by norm_num) (by norm_num) (by norm_num)).1.trans
    (by norm_num)

/-- Claim C10: the textured fragment shader discards a fragment exactly
when its interpolated position (`vTexCoord.zw`) is strictly outside the
clipping rectangle on some axis; the comparisons are strict, so a
fragment exactly on the clip boundary is kept and written as the
sampled texture color. -/
theorem frag_shader_clip (v c : Vec4) (s : ℚ → ℚ → Vec4) :
    (fragMain v c s = none ↔ (v.z < c.x ∨ v.w < c.y ∨ v.z > c.z ∨ v.w > c.w)) ∧
    (c.x ≤ v.z → c.y ≤ v.w → v.z ≤ c.z → v.w ≤ c.w →
        fragMain v c s = some (s v.x v.y)) := by
  constructor
  · unfold fragMain
    dsimp only
    split
    · simp only [true_iff]
      assumption
    · simp only [reduceCtorEq, false_iff]
      assumption
  · intro h1 h2 h3 h4
    unfold fragMain
    dsimp only
    rw [if_neg]
    push_neg
    exact ⟨h1, h2, h3, h4⟩

/-- Witness for C10 at a concrete fragment lying exactly on the left
clip boundary: it is not discarded and the sampled texture color is
written. -/
theorem frag_shader_clip_witness :
    fragMain ⟨0, 0, 1, 1⟩ ⟨1, 1, 2, 2⟩ (fun a b => ⟨a, b, 0, 0⟩)
        = some ⟨0, 0, 0, 0⟩ :=
  (frag_shader_clip ⟨0, 0, 1, 1⟩ ⟨1, 1, 2, 2⟩ (fun a b => ⟨a, b, 0, 0⟩)).2
    (by norm_num) (by norm_num) (by norm_num) (by norm_num)

/-- A successful depth-checked run ends at the start depth plus the
total depth delta, and every prefix of the call sequence keeps the
running depth nonnegative. -/
theorem processDepth_some : ∀ (ops : List GuiOp) (d r : Nat),
    processDepth ops d = some r →
    ((r : Int) = (d : Int) + (ops.map GuiOp.depthDelta).sum ∧
      ∀ p, p <+: ops → 0 ≤ (d : Int) + (p.map GuiOp.depthDelta).sum)
  | [], d, r, h => by
    rw [processDepth, Option.some.injEq] at h
    constructor
    · simp [h]
    · intro p hp
      rw [List.prefix_nil.mp hp]
      simp
  | .startGroup :: rest, d, r, h => by
    rw [processDepth] at h
    obtain ⟨h1, h2⟩ := processDepth_some rest (d + 1) r h
    constructor
    · rw [h1]
      simp only [List.map_cons, List.sum_cons, GuiOp.depthDelta]
      push_cast
      ring
    · intro p hp
      rcases p with _ | ⟨x, q⟩
      · simp
      · obtain ⟨hx, hq⟩ := List.cons_prefix_cons.mp hp
        subst hx
        have := h2 q hq
        simp only [List.map_cons, List.sum_cons, GuiOp.depthDelta]
        push_cast at this
        linarith
  | .endGroup :: rest, d, r, h => by
    rw [processDepth] at h
    by_cases hd : d = 0
    · rw [if_pos hd] at h
      exact absurd h (by simp)
    · rw [if_neg hd] at h
      obtain ⟨h1, h2⟩ := processDepth_some rest (d - 1) r h
      have hd1 : ((d - 1 : ℕ) : Int) = (d : Int) - 1 := by omega
      constructor
      · rw [h1, hd1]
        simp only [List.map_cons, List.sum_cons, GuiOp.depthDelta]
        ring
      · intro p hp
        rcases p with _ | ⟨x, q⟩
        · simp
        · obtain ⟨hx, hq⟩ := List.cons_prefix_cons.mp hp
          subst hx
          have := h2 q hq
          rw [hd1] at this
          simp only [List.map_cons, List.sum_cons, GuiOp.depthDelta]
          linarith
  | .elementOp :: rest, d, r, h => by
    rw [processDepth] at h
    obtain ⟨h1, h2⟩ := processDepth_some rest d r h
    constructor
    · rw [h1]
      simp [GuiOp.depthDelta]
    · intro p hp
      rcases p with _ | ⟨x, q⟩
      · simp
      · obtain ⟨hx, hq⟩ := List.cons_prefix_cons.mp hp
        subst hx
        have := h2 q hq
        simp only [List.map_cons, List.sum_cons, GuiOp.depthDelta]
        linarith

/-- If every prefix of the call sequence keeps the running depth
nonnegative, the depth-checked run never trips the assert. -/
theorem processDepth_total : ∀ (ops : List GuiOp) (d : Nat),
    (∀ p, p <+: ops → 0 ≤ (d : Int) + (p.map GuiOp.depthDelta).sum) →
    ∃ r, processDepth ops d = some r
  | [], d, _ => ⟨d, rfl⟩
  | .startGroup :: rest, d, h => by
    rw [processDepth]
    apply processDepth_total rest (d + 1)
    intro q hq
    have := h (.startGroup :: q) (List.cons_prefix_cons.mpr ⟨rfl, hq⟩)
    simp only [List.map_cons, List.sum_cons, GuiOp.depthDelta] at this
    push_cast
    linarith
  | .endGroup :: rest, d, h => by
    have hd : 1 ≤ d := by
      have := h [.endGroup] (List.cons_prefix_cons.mpr ⟨rfl, List.nil_prefix⟩)
      simp [GuiOp.depthDelta] at this
      omega
    rw [processDepth, if_neg (by omega)]
    apply processDepth_total rest (d - 1)
    intro q hq
    have := h (.endGroup :: q) (List.cons_prefix_cons.mpr ⟨rfl, hq⟩)
    simp only [List.map_cons, List.sum_cons, GuiOp.depthDelta] at this
    have hd1 : ((d - 1 : ℕ) : Int) = (d : Int) - 1 := by omega
    rw [hd1]
    linarith
  | .elementOp :: rest, d, h => by
    rw [processDepth]
    apply processDepth_total rest d
    intro q hq
    have := h (.elementOp :: q) (List.cons_prefix_cons.mpr ⟨rfl, hq⟩)
    simp only [List.map_cons, List.sum_cons, GuiOp.depthDelta] at this
    linarith

/-- Claim C9: the frame-level stack-depth check succeeds exactly on
declaration sequences with matched `StartGroup`/`EndGroup` nesting — on
a mismatched sequence the check fails (the abort/assert-level failure),
and the failure branch is unreachable when nesting is matched. -/
theorem nesting_check_spec (ops : List GuiOp) :
    nestingCheck ops = true ↔ MatchedNesting ops := by
  unfold nestingCheck MatchedNesting
  rw [beq_iff_eq]
  constructor
  · intro h
    obtain ⟨h1, h2⟩ := processDepth_some ops 0 0 h
    constructor
    · intro p hp
      have := h2 p hp
      simpa using this
    · have : (0 : Int) = 0 + (ops.map GuiOp.depthDelta).sum := h1
      linarith
  · intro hm
    obtain ⟨h1, h2⟩ := hm
    obtain ⟨r, hr⟩ := processDepth_total ops 0 (fun p hp => by simpa using h1 p hp)
    obtain ⟨he, _⟩ := processDepth_some ops 0 r hr
    rw [h2] at he
    have hr0 : r = 0 := by omega
    rw [hr, hr0]

/-- Witness for C9 at concrete call sequences: `StartGroup; element;
EndGroup` has matched nesting, and an extra `EndGroup` does not. -/
theorem nesting_check_spec_witness :
    MatchedNesting [GuiOp.startGroup, GuiOp.elementOp, GuiOp.endGroup] ∧
    ¬ MatchedNesting [GuiOp.startGroup, GuiOp.endGroup, GuiOp.endGroup] :=
  ⟨(nesting_check_spec [GuiOp.startGroup, GuiOp.elementOp, GuiOp.endGroup]).mp (by decide),
   fun hm =>
     absurd ((nesting_check_spec [GuiOp.startGroup, GuiOp.endGroup, GuiOp.endGroup]).mpr hm)
       (by decide)⟩

/-- Witness for C8 at a concrete state: after element 7 captures
pointer 3 from the initial state, the captured pointer index is 3; in
the initial state it is -1. -/
theorem captured_pointer_index_spec_witness :
    getCapturedPointerIndex (capturePointer 3 7 InteractionState.init) = (3 : Int) ∧
    getCapturedPointerIndex InteractionState.init = -1 :=
  ⟨(captured_pointer_index_spec InteractionState.init 3 7).2,
   (captured_pointer_index_spec InteractionState.init 3 7).1.mpr rfl⟩

end FlatUI
